import Mathlib

/-!
Verification development for `utility/generate_static_ocp_settings.py`.

The Python module synthesizes a nested OCP dataset (nodes → namespaces →
pods/volumes → volume claims) from a configuration, in a fixed or a
randomized mode.  The development below is a shallow embedding of that
module: the pseudo-random source (faker) is modelled as an explicit oracle
of integer draws and word draws consumed in program order, mutable module
state (the `SEEN_NAMES` / `SEEN_RESOURCE_IDS` caches) is threaded
explicitly, and fallible operations (Python exceptions such as
`IndexError` / `ValueError`, and oracle exhaustion) return `Option` /
`Except`.

Integer draws are modelled as `lo + (draw % count) * step`, which realizes
exactly the inclusive stepped range `randrange(lo, hi + 1, step)` that
faker's `random_int` samples from; a call with an empty range (`hi < lo`)
fails, as faker raises `ValueError` there.
-/

namespace Nise

/-- Calendar date, standing for Python `datetime.date`. -/
structure Date where
  year : Int
  month : Int
  day : Int
deriving Repr, DecidableEq

/-- Zero-pad the decimal rendering of a nonnegative integer to two digits,
as Python does when printing date components. -/
def pad2 (n : Int) : String :=
  if n < 10 then "0" ++ toString n else toString n

/-- Python `str(date)`: ISO `YYYY-MM-DD` rendering. -/
def dateStr (d : Date) : String :=
  toString d.year ++ "-" ++ pad2 d.month ++ "-" ++ pad2 d.day

/-- The oracle and module state threaded through the generator: the stream
of faker integer draws, the stream of faker word draws, and the two
module-level uniqueness caches `SEEN_NAMES` and `SEEN_RESOURCE_IDS`. -/
structure S where
  ints : List Nat
  words : List String
  seenNames : List String
  seenResourceIds : List String
deriving Repr, DecidableEq

/-- Validated generator configuration (the `dicta` after `validate_config`);
the spec's data model declares every numeric bound nonnegative, so the
bounds are carried as `Nat`. -/
structure Config where
  start_date : Date
  end_date : Date
  storage_classes : List String
  max_name_words : Nat
  max_resource_id_length : Nat
  max_nodes : Nat
  max_node_cpu_cores : Nat
  max_node_memory_gig : Nat
  max_node_namespaces : Nat
  max_node_namespace_pods : Nat
  min_node_namespace_pod_seconds : Nat
  max_node_namespace_pod_seconds : Nat
  max_node_namespace_pod_labels : Nat
  max_node_namespace_volumes : Nat
  max_node_namespace_volume_request_gig : Nat
  max_node_namespace_volume_labels : Nat
  max_node_namespace_volume_volume_claims : Nat
  max_node_namespace_volume_volume_claim_labels : Nat
  max_node_namespace_volume_volume_claim_capacity_gig : Nat
deriving Repr, DecidableEq

/-- Faker `random_int(lo, hi, step)`: a uniform draw from
`randrange(lo, hi + 1, step)`.  The next raw oracle value selects which of
the `(hi - lo) / step + 1` admissible values is produced; an empty range
raises (`none`). -/
def randomIntStep (lo hi step : Nat) (s : S) : Option (Nat × S) :=
  if hi < lo ∨ step = 0 then none
  else
    match s.ints with
    | [] => none
    | d :: rest => some (lo + (d % ((hi - lo) / step + 1)) * step, { s with ints := rest })

/-- Faker `random_int(lo, hi)` with the default step of 1. -/
def randomInt (lo hi : Nat) (s : S) : Option (Nat × S) :=
  randomIntStep lo hi 1 s

/-- Consume `n` words from the word stream, as `FAKER.words(n)` does. -/
def takeWords (n : Nat) (s : S) : Option (List String × S) :=
  if n ≤ s.words.length then
    some (s.words.take n, { s with words := s.words.drop n })
  else none

/-- Python `re.sub("-+", "-", ·)` on the character list: every maximal run
of hyphens is collapsed to a single hyphen. -/
def collapseDashesAux : List Char → List Char
  | [] => []
  | [c] => [c]
  | a :: b :: rest =>
    if a = '-' ∧ b = '-' then collapseDashesAux (b :: rest)
    else a :: collapseDashesAux (b :: rest)

/-- `DBL_DASH.sub("-", s)`. -/
def collapseDashes (s : String) : String :=
  String.mk (collapseDashesAux s.data)

/-- Python `str.zfill`: left-pad with `'0'` up to `width`; longer strings
are returned unchanged. -/
def pyZfill (s : String) (width : Nat) : String :=
  if width ≤ s.length then s
  else String.mk (List.replicate (width - s.length) '0') ++ s

/-- `generate_words(config)`: `config.max_name_words` faker words joined
with hyphens. -/
def generate_words (cfg : Config) (s : S) : Option (String × S) :=
  match takeWords cfg.max_name_words s with
  | none => none
  | some (ws, s') => some (String.intercalate "-" ws, s')

/-- `generate_number_str(config)`: the decimal rendering of
`random_int(0, 10 ** max_resource_id_length)`, zero-filled to
`max_resource_id_length`. -/
def generate_number_str (cfg : Config) (s : S) : Option (String × S) :=
  match randomInt 0 (10 ^ cfg.max_resource_id_length) s with
  | none => none
  | some (v, s') => some (pyZfill (toString v) cfg.max_resource_id_length, s')

/-- One iteration's dynamic middle: run the generator when `dynamic`,
otherwise the empty string. -/
def genMid (cfg : Config) (dynamic : Bool) (gen : Config → S → Option (String × S))
    (s : S) : Option (String × S) :=
  if dynamic then gen cfg s else some ("", s)

/-- One loop iteration's `if prefix: prefix += "-"` statement. -/
def stepPfx (pfx : String) : String :=
  if pfx = "" then pfx else pfx ++ "-"

/-- One loop iteration's `if suffix: suffix = "-" + suffix` statement. -/
def stepSfx (sfx : String) : String :=
  if sfx = "" then sfx else "-" ++ sfx

/-- The `while True` retry loop of `generate_name`, with explicit fuel.
Each iteration first appends `"-"` to a nonempty prefix and prepends `"-"`
to a nonempty suffix (the loop re-executes those statements on retry, as
the source does), then forms the candidate and checks the cache.  The
candidate is cached uncollapsed; the caller collapses hyphen runs only in
the returned string. -/
def nameLoop (cfg : Config) (gen : Config → S → Option (String × S)) (dynamic : Bool)
    (cache : List String) : Nat → String → String → S → Option (String × List String × S)
  | 0, _, _, _ => none
  | fuel + 1, pfx, sfx, s =>
    match genMid cfg dynamic gen s with
    | none => none
    | some (mid, s') =>
      if stepPfx pfx ++ mid ++ stepSfx sfx ∈ cache then
        nameLoop cfg gen dynamic cache fuel (stepPfx pfx) (stepSfx sfx) s'
      else some (stepPfx pfx ++ mid ++ stepSfx sfx,
                 (stepPfx pfx ++ mid ++ stepSfx sfx) :: cache, s')

/-- `generate_name` specialized to a cache selected by getter/setter (the
Python function receives the mutable set as an argument). -/
def generate_name_with (cfg : Config) (pfx sfx : String) (dynamic : Bool)
    (gen : Config → S → Option (String × S))
    (getC : S → List String) (setC : List String → S → S) (s : S) : Option (String × S) :=
  match nameLoop cfg gen dynamic (getC s) ((getC s).length + s.words.length + s.ints.length + 2) pfx sfx s with
  | none => none
  | some (nn, c, s') => some (collapseDashes nn, setC c s')

/-- `generate_name(config, prefix, suffix, dynamic)` with the default word
generator and the `SEEN_NAMES` cache. -/
def generate_name (cfg : Config) (pfx sfx : String) (dynamic : Bool) (s : S) :
    Option (String × S) :=
  generate_name_with cfg pfx sfx dynamic generate_words
    (fun t => t.seenNames) (fun c t => { t with seenNames := c }) s

/-- `generate_resource_id(config, prefix, suffix, dynamic)`: `generate_name`
with the number generator and the `SEEN_RESOURCE_IDS` cache. -/
def generate_resource_id (cfg : Config) (pfx sfx : String) (dynamic : Bool) (s : S) :
    Option (String × S) :=
  generate_name_with cfg pfx sfx dynamic generate_number_str
    (fun t => t.seenResourceIds) (fun c t => { t with seenResourceIds := c }) s

/-- `generate_labels(num_labels)`: `num_labels` pipe-separated
`label_<word>:<word>` pairs built by zipping two word draws. -/
def generate_labels (numLabels : Nat) (s : S) : Option (String × S) :=
  match takeWords numLabels s with
  | none => none
  | some (ws1, s1) =>
    match takeWords numLabels s1 with
    | none => none
    | some (ws2, s2) =>
      some (String.intercalate "|"
        ((ws1.zip ws2).map (fun e => "label_" ++ e.1 ++ ":" ++ e.2)), s2)

/-- Generated volume claim. -/
structure VolumeClaim where
  name : String
  pod_name : String
  labels : String
  capacity_gig : Nat
deriving Repr, DecidableEq

/-- Generated volume. -/
structure Volume where
  name : String
  storage_class : String
  volume_request_gig : Nat
  labels : String
  volume_claims : List VolumeClaim
deriving Repr, DecidableEq

/-- Generated pod. -/
structure Pod where
  name : String
  cpu_request : Nat
  mem_request_gig : Nat
  cpu_limit : Nat
  mem_limit_gig : Nat
  pod_seconds : Nat
  labels : String
deriving Repr, DecidableEq

/-- Generated namespace. -/
structure Namespace where
  name : String
  pods : List Pod
  volumes : List Volume
deriving Repr, DecidableEq

/-- Generated node. -/
structure Node where
  name : String
  cpu_cores : Nat
  memory_gig : Nat
  resource_id : String
  namespaces : List Namespace
deriving Repr, DecidableEq

/-- The full generated dataset. -/
structure Data where
  start_date : String
  end_date : String
  nodes : List Node
deriving Repr, DecidableEq

/-- The pod referenced by a volume claim:
`namespace.pods[-1 if claim_ix >= len(namespace.pods) else claim_ix]`.
Python's `pods[-1]` on an empty list raises, hence `Option`. -/
def podAt (pods : List Pod) (ix : Nat) : Option Pod :=
  if ix ≥ pods.length then pods.getLast? else pods.get? ix

/-- The volume-claim loop of `build_data`, one iteration per index. -/
def buildVolumeClaims (cfg : Config) (rand : Bool) (nsName : String) (pods : List Pod) :
    List Nat → S → Option (List VolumeClaim × S)
  | [], s => some ([], s)
  | ix :: ixs, s =>
    match (if rand then randomInt 1 cfg.max_node_namespace_volume_volume_claim_capacity_gig s
           else some (cfg.max_node_namespace_volume_volume_claim_capacity_gig, s)) with
    | none => none
    | some (cap, s1) =>
      match podAt pods ix with
      | none => none
      | some pod =>
        match generate_name cfg (nsName ++ "-vol-claim") (toString ix) false s1 with
        | none => none
        | some (nm, s2) =>
          match generate_labels cfg.max_node_namespace_volume_volume_claim_labels s2 with
          | none => none
          | some (lbl, s3) =>
            match buildVolumeClaims cfg rand nsName pods ixs s3 with
            | none => none
            | some (rest, s4) =>
              some ({ name := nm, pod_name := pod.name, labels := lbl,
                      capacity_gig := cap } :: rest, s4)

/-- The storage-class selection of the volume loop:
`storage_classes[random_int(0, len - 1)]` in randomized mode,
`storage_classes[0]` in fixed mode. -/
def pickStorageClass (cfg : Config) (rand : Bool) (s : S) : Option (String × S) :=
  if rand then
    if cfg.storage_classes.length = 0 then none
    else
      match randomInt 0 (cfg.storage_classes.length - 1) s with
      | none => none
      | some (i, s1) =>
        match cfg.storage_classes.get? i with
        | none => none
        | some c => some (c, s1)
  else
    match cfg.storage_classes.get? 0 with
    | none => none
    | some c => some (c, s)

/-- The volume loop of `build_data`, one iteration per index. -/
def buildVolumes (cfg : Config) (rand : Bool) (nsName : String) (pods : List Pod) :
    List Nat → S → Option (List Volume × S)
  | [], s => some ([], s)
  | ix :: ixs, s =>
    match pickStorageClass cfg rand s with
    | none => none
    | some (sc, s1) =>
      match (if rand then randomInt 1 cfg.max_node_namespace_volume_request_gig s1
             else some (cfg.max_node_namespace_volume_request_gig, s1)) with
      | none => none
      | some (vreq, s2) =>
        match generate_name cfg (nsName ++ "-vol") (toString ix) false s2 with
        | none => none
        | some (nm, s3) =>
          match generate_labels cfg.max_node_namespace_volume_labels s3 with
          | none => none
          | some (lbl, s4) =>
            match (if rand then randomInt 1 cfg.max_node_namespace_volume_volume_claims s4
                   else some (cfg.max_node_namespace_volume_volume_claims, s4)) with
            | none => none
            | some (nclaims, s5) =>
              match buildVolumeClaims cfg rand nsName pods (List.range nclaims) s5 with
              | none => none
              | some (claims, s6) =>
                match buildVolumes cfg rand nsName pods ixs s6 with
                | none => none
                | some (rest, s7) =>
                  some ({ name := nm, storage_class := sc, volume_request_gig := vreq,
                          labels := lbl, volume_claims := claims } :: rest, s7)

/-- The `pod_seconds` step granularity:
`(config.max_node_namespace_pod_seconds // 10) or 1800`. -/
def stepOf (cfg : Config) : Nat :=
  if cfg.max_node_namespace_pod_seconds / 10 = 0 then 1800
  else cfg.max_node_namespace_pod_seconds / 10

/-- The per-pod numeric draws: in randomized mode four independent draws
bounded by the owning node's cores/memory plus the stepped `pod_seconds`
draw; in fixed mode the node's cores/memory and the configured maximum. -/
def podNumbers (cfg : Config) (rand : Bool) (cores memory : Nat) (s : S) :
    Option ((Nat × Nat × Nat × Nat × Nat) × S) :=
  if rand then
    match randomInt 1 cores s with
    | none => none
    | some (cpuReq, s1) =>
      match randomInt 1 memory s1 with
      | none => none
      | some (memReq, s2) =>
        match randomInt 1 cores s2 with
        | none => none
        | some (cpuLim, s3) =>
          match randomInt 1 memory s3 with
          | none => none
          | some (memLim, s4) =>
            match randomIntStep cfg.min_node_namespace_pod_seconds
                cfg.max_node_namespace_pod_seconds (stepOf cfg) s4 with
            | none => none
            | some (podSec, s5) => some ((cpuReq, memReq, cpuLim, memLim, podSec), s5)
  else
    some ((cores, memory, cores, memory, cfg.max_node_namespace_pod_seconds), s)

/-- The pod loop of `build_data`, one iteration per index. -/
def buildPods (cfg : Config) (rand : Bool) (nsName : String) (cores memory : Nat) :
    List Nat → S → Option (List Pod × S)
  | [], s => some ([], s)
  | ix :: ixs, s =>
    match podNumbers cfg rand cores memory s with
    | none => none
    | some ((cpuReq, memReq, cpuLim, memLim, podSec), s1) =>
      match generate_name cfg (nsName ++ "-pod") (toString ix) false s1 with
      | none => none
      | some (nm, s2) =>
        match generate_labels cfg.max_node_namespace_pod_labels s2 with
        | none => none
        | some (lbl, s3) =>
          match buildPods cfg rand nsName cores memory ixs s3 with
          | none => none
          | some (rest, s4) =>
            some ({ name := nm, cpu_request := cpuReq, mem_request_gig := memReq,
                    cpu_limit := cpuLim, mem_limit_gig := memLim, pod_seconds := podSec,
                    labels := lbl } :: rest, s4)

/-- The namespace loop of `build_data`, one iteration per index. -/
def buildNamespaces (cfg : Config) (rand : Bool) (nodeName : String) (cores memory : Nat) :
    List Nat → S → Option (List Namespace × S)
  | [], s => some ([], s)
  | _ix :: ixs, s =>
    match generate_name cfg nodeName "" true s with
    | none => none
    | some (nm, s1) =>
      match (if rand then randomInt 1 cfg.max_node_namespace_pods s1
             else some (cfg.max_node_namespace_pods, s1)) with
      | none => none
      | some (npods, s2) =>
        match buildPods cfg rand nm cores memory (List.range npods) s2 with
        | none => none
        | some (pods, s3) =>
          match (if rand then randomInt 1 cfg.max_node_namespace_volumes s3
                 else some (cfg.max_node_namespace_volumes, s3)) with
          | none => none
          | some (nvols, s4) =>
            match buildVolumes cfg rand nm pods (List.range nvols) s4 with
            | none => none
            | some (vols, s5) =>
              match buildNamespaces cfg rand nodeName cores memory ixs s5 with
              | none => none
              | some (rest, s6) =>
                some ({ name := nm, pods := pods, volumes := vols } :: rest, s6)

/-- The node loop of `build_data`, one iteration per index. -/
def buildNodes (cfg : Config) (rand : Bool) : List Nat → S → Option (List Node × S)
  | [], s => some ([], s)
  | _ix :: ixs, s =>
    match (if rand then
             match randomInt 1 cfg.max_node_cpu_cores s with
             | none => none
             | some (c, sa) =>
               match randomInt 1 cfg.max_node_memory_gig sa with
               | none => none
               | some (m, sb) => some ((c, m), sb)
           else some ((cfg.max_node_cpu_cores, cfg.max_node_memory_gig), s)) with
    | none => none
    | some ((cores, memory), s1) =>
      match generate_name cfg "" "" true s1 with
      | none => none
      | some (nm, s2) =>
        match generate_resource_id cfg "" "" true s2 with
        | none => none
        | some (rid, s3) =>
          match (if rand then randomInt 1 cfg.max_node_namespaces s3
                 else some (cfg.max_node_namespaces, s3)) with
          | none => none
          | some (nns, s4) =>
            match buildNamespaces cfg rand nm cores memory (List.range nns) s4 with
            | none => none
            | some (nss, s5) =>
              match buildNodes cfg rand ixs s5 with
              | none => none
              | some (rest, s6) =>
                some ({ name := nm, cpu_cores := cores, memory_gig := memory,
                        resource_id := rid, namespaces := nss } :: rest, s6)

/-- `build_data(config, _random)`: the whole tree. -/
def build_data (cfg : Config) (rand : Bool) (s : S) : Option (Data × S) :=
  match (if rand then randomInt 1 cfg.max_nodes s else some (cfg.max_nodes, s)) with
  | none => none
  | some (nNodes, s1) =>
    match buildNodes cfg rand (List.range nNodes) s1 with
    | none => none
    | some (nodes, s2) =>
      some ({ start_date := dateStr cfg.start_date, end_date := dateStr cfg.end_date,
              nodes := nodes }, s2)

/-- Leap-year test, as Python `calendar` uses. -/
def isLeapYear (y : Int) : Bool :=
  y % 4 == 0 && (y % 100 != 0 || y % 400 == 0)

/-- `monthrange(y, m)[1]`: the number of days in the month. -/
def daysInMonth (y m : Int) : Int :=
  if m = 2 then (if isLeapYear y then 29 else 28)
  else if m = 4 ∨ m = 6 ∨ m = 9 ∨ m = 11 then 30
  else 31

/-- `default_date.replace(day=1) - relativedelta(months=1)`: the first day
of the month preceding `today`. -/
def firstDayPrevMonth (today : Date) : Date :=
  if today.month = 1 then ⟨today.year - 1, 12, 1⟩
  else ⟨today.year, today.month - 1, 1⟩

/-- `default_date.replace(day=last_day_of_month)`: the last day of the
month of `today`. -/
def lastDayCurMonth (today : Date) : Date :=
  ⟨today.year, today.month, daysInMonth today.year today.month⟩

/-- A date-valued configuration entry before resolution: YAML may supply a
string (parsed later by `dateutil`) or an already-parsed date. -/
inductive FDate where
  | fstr (s : String)
  | fdate (d : Date)
deriving Repr, DecidableEq

/-- The merged configuration as `init_config` manipulates it: dates may
still be unresolved strings; the numeric bounds are Python ints. -/
structure CfgW where
  start_date : FDate
  end_date : FDate
  storage_classes : List String
  max_name_words : Int
  max_resource_id_length : Int
  max_nodes : Int
  max_node_cpu_cores : Int
  max_node_memory_gig : Int
  max_node_namespaces : Int
  max_node_namespace_pods : Int
  min_node_namespace_pod_seconds : Int
  max_node_namespace_pod_seconds : Int
  max_node_namespace_pod_labels : Int
  max_node_namespace_volumes : Int
  max_node_namespace_volume_request_gig : Int
  max_node_namespace_volume_labels : Int
  max_node_namespace_volume_volume_claims : Int
  max_node_namespace_volume_volume_claim_labels : Int
  max_node_namespace_volume_volume_claim_capacity_gig : Int
deriving Repr, DecidableEq

/-- `default_config()`: all defaults, with the date defaults computed from
`today` (Python `date.today()`). -/
def default_config (today : Date) : CfgW where
  start_date := .fdate (firstDayPrevMonth today)
  end_date := .fdate (lastDayCurMonth today)
  storage_classes := ["gp2"]
  max_name_words := 2
  max_resource_id_length := 10
  max_nodes := 1
  max_node_cpu_cores := 1
  max_node_memory_gig := 2
  max_node_namespaces := 1
  max_node_namespace_pods := 1
  min_node_namespace_pod_seconds := 300
  max_node_namespace_pod_seconds := 3600
  max_node_namespace_pod_labels := 1
  max_node_namespace_volumes := 1
  max_node_namespace_volume_request_gig := 20
  max_node_namespace_volume_labels := 1
  max_node_namespace_volume_volume_claims := 1
  max_node_namespace_volume_volume_claim_labels := 1
  max_node_namespace_volume_volume_claim_capacity_gig := 20

/-- The known keys a YAML settings file may override (a partial mapping,
shallow-merged into the defaults by `config.update`). -/
structure FileOver where
  start_date : Option FDate := none
  end_date : Option FDate := none
  storage_classes : Option (List String) := none
  max_name_words : Option Int := none
  max_resource_id_length : Option Int := none
  max_nodes : Option Int := none
  max_node_cpu_cores : Option Int := none
  max_node_memory_gig : Option Int := none
  max_node_namespaces : Option Int := none
  max_node_namespace_pods : Option Int := none
  min_node_namespace_pod_seconds : Option Int := none
  max_node_namespace_pod_seconds : Option Int := none
  max_node_namespace_pod_labels : Option Int := none
  max_node_namespace_volumes : Option Int := none
  max_node_namespace_volume_request_gig : Option Int := none
  max_node_namespace_volume_labels : Option Int := none
  max_node_namespace_volume_volume_claims : Option Int := none
  max_node_namespace_volume_volume_claim_labels : Option Int := none
  max_node_namespace_volume_volume_claim_capacity_gig : Option Int := none
deriving Repr, DecidableEq

/-- `config.update(config_settings)`: every key present in the file
overwrites the corresponding merged value. -/
def applyFile (c : CfgW) (f : FileOver) : CfgW where
  start_date := f.start_date.getD c.start_date
  end_date := f.end_date.getD c.end_date
  storage_classes := f.storage_classes.getD c.storage_classes
  max_name_words := f.max_name_words.getD c.max_name_words
  max_resource_id_length := f.max_resource_id_length.getD c.max_resource_id_length
  max_nodes := f.max_nodes.getD c.max_nodes
  max_node_cpu_cores := f.max_node_cpu_cores.getD c.max_node_cpu_cores
  max_node_memory_gig := f.max_node_memory_gig.getD c.max_node_memory_gig
  max_node_namespaces := f.max_node_namespaces.getD c.max_node_namespaces
  max_node_namespace_pods := f.max_node_namespace_pods.getD c.max_node_namespace_pods
  min_node_namespace_pod_seconds :=
    f.min_node_namespace_pod_seconds.getD c.min_node_namespace_pod_seconds
  max_node_namespace_pod_seconds :=
    f.max_node_namespace_pod_seconds.getD c.max_node_namespace_pod_seconds
  max_node_namespace_pod_labels :=
    f.max_node_namespace_pod_labels.getD c.max_node_namespace_pod_labels
  max_node_namespace_volumes := f.max_node_namespace_volumes.getD c.max_node_namespace_volumes
  max_node_namespace_volume_request_gig :=
    f.max_node_namespace_volume_request_gig.getD c.max_node_namespace_volume_request_gig
  max_node_namespace_volume_labels :=
    f.max_node_namespace_volume_labels.getD c.max_node_namespace_volume_labels
  max_node_namespace_volume_volume_claims :=
    f.max_node_namespace_volume_volume_claims.getD c.max_node_namespace_volume_volume_claims
  max_node_namespace_volume_volume_claim_labels :=
    f.max_node_namespace_volume_volume_claim_labels.getD
      c.max_node_namespace_volume_volume_claim_labels
  max_node_namespace_volume_volume_claim_capacity_gig :=
    f.max_node_namespace_volume_volume_claim_capacity_gig.getD
      c.max_node_namespace_volume_volume_claim_capacity_gig

/-- `if isinstance(v, str): v = parse(v)`: resolve a still-string date via
the external `dateutil` parser. -/
def resolveFDate (pd : String → Date) : FDate → FDate
  | .fstr s => .fdate (pd s)
  | .fdate d => .fdate d

/-- Raw command-line arguments as argparse delivers them (`None` for an
absent optional flag). -/
structure Args where
  config_file_name : Option String
  template_file_name : String
  start_date : Option String
  end_date : Option String
  num_nodes : Option Int
deriving Repr, DecidableEq

/-- Arguments after `handle_args`: dates parsed, node-count override
normalized.  A supplied-but-empty date string is falsy in Python and is
treated as absent by every later read, so it is normalized to `none`. -/
structure ParsedArgs where
  config_file_name : Option String
  template_file_name : String
  start_date : Option Date
  end_date : Option Date
  num_nodes : Option Int
deriving Repr, DecidableEq

/-- Errors `handle_args` can raise. -/
inductive ArgError where
  | fileNotFound (path : String)
  | dateRange
deriving Repr, DecidableEq

/-- Python truthiness of an optional string: `None` and `""` are falsy. -/
def optTruthy : Option String → Bool
  | none => false
  | some str => str ≠ ""

/-- `handle_args(args)`: file-existence checks, the both-or-neither date
check, date parsing, and the below-1 node-count normalization.
`fileExists` stands for `os.path.exists` and `pd` for `dateutil.parse`. -/
def handle_args (fileExists : String → Bool) (pd : String → Date) (a : Args) :
    Except ArgError ParsedArgs :=
  if (match a.config_file_name with
      | some f => decide (f ≠ "") && !fileExists f
      | none => false) then
    Except.error (ArgError.fileNotFound (a.config_file_name.getD ""))
  else if !fileExists a.template_file_name then
    Except.error (ArgError.fileNotFound a.template_file_name)
  else if ((if optTruthy a.start_date then 1 else 0) +
           (if optTruthy a.end_date then 1 else 0) : Nat) = 1 then
    Except.error ArgError.dateRange
  else
    Except.ok
      { config_file_name := a.config_file_name
        template_file_name := a.template_file_name
        start_date := match a.start_date with
          | some str => if str ≠ "" then some (pd str) else none
          | none => none
        end_date := match a.end_date with
          | some str => if str ≠ "" then some (pd str) else none
          | none => none
        num_nodes := match a.num_nodes with
          | some n => if n < 1 then none else some n
          | none => none }

/-- `init_config(args)`: defaults, then the settings file, then the
explicit argument overrides, then string-date resolution.  (The final
`validate_config` call is modelled separately on the untyped mapping;
on a well-typed configuration it returns `True` and changes nothing.) -/
def init_config (pd : String → Date) (today : Date) (file : Option FileOver)
    (a : ParsedArgs) : CfgW :=
  let c0 := default_config today
  let c1 := match file with
    | some f => applyFile c0 f
    | none => c0
  let c2 := match a.start_date with
    | some d => { c1 with start_date := FDate.fdate d }
    | none => c1
  let c3 := { c2 with start_date := resolveFDate pd c2.start_date }
  let c4 := match a.end_date with
    | some d => { c3 with end_date := FDate.fdate d }
    | none => c3
  let c5 := { c4 with end_date := resolveFDate pd c4.end_date }
  match a.num_nodes with
  | some n => if n ≠ 0 then { c5 with max_nodes := n } else c5
  | none => c5

/-- A Python runtime value as far as `validate_config`'s `isinstance`
checks observe it. -/
inductive PyVal where
  | vInt (n : Int)
  | vBool (b : Bool)
  | vStr (s : String)
  | vList (n : Nat)
  | vDate (d : Date)
  | vFloat
  | vNone
deriving Repr, DecidableEq

/-- The declared types in the validator mapping. -/
inductive PyType where
  | tInt
  | tList
  | tDate
deriving Repr, DecidableEq

/-- `type.__name__` for the declared types. -/
def typeName : PyType → String
  | .tInt => "int"
  | .tList => "list"
  | .tDate => "date"

/-- Python `isinstance`, including the subclass edges the code can meet:
`bool` is a subclass of `int`. -/
def isinstance : PyVal → PyType → Bool
  | .vInt _, .tInt => true
  | .vBool _, .tInt => true
  | .vList _, .tList => true
  | .vDate _, .tDate => true
  | _, _ => false

/-- The module's validator mapping: every known key with its declared
type, in insertion order. -/
def validator : List (String × PyType) :=
  [("start_date", .tDate),
   ("end_date", .tDate),
   ("storage_classes", .tList),
   ("max_name_words", .tInt),
   ("max_resource_id_length", .tInt),
   ("max_nodes", .tInt),
   ("max_node_cpu_cores", .tInt),
   ("max_node_memory_gig", .tInt),
   ("max_node_namespaces", .tInt),
   ("max_node_namespace_pods", .tInt),
   ("min_node_namespace_pod_seconds", .tInt),
   ("max_node_namespace_pod_seconds", .tInt),
   ("max_node_namespace_pod_labels", .tInt),
   ("max_node_namespace_volumes", .tInt),
   ("max_node_namespace_volume_request_gig", .tInt),
   ("max_node_namespace_volume_labels", .tInt),
   ("max_node_namespace_volume_volume_claims", .tInt),
   ("max_node_namespace_volume_volume_claim_labels", .tInt),
   ("max_node_namespace_volume_volume_claim_capacity_gig", .tInt)]

/-- Dictionary lookup on the untyped merged configuration. -/
def lookupKey (cfgd : List (String × PyVal)) (k : String) : Option PyVal :=
  (cfgd.find? (fun kv => kv.1 == k)).map (fun kv => kv.2)

/-- `os.linesep` on the POSIX platforms the utility targets. -/
def osLinesep : String := "\n"

/-- The offending-key test of the validator comprehension: the key is
present in the config and fails its `isinstance` check. -/
def badEntry (cfgd : List (String × PyVal)) (kv : String × PyType) : Bool :=
  match lookupKey cfgd kv.1 with
  | some v => !isinstance v kv.2
  | none => false

/-- One step of the validator comprehension: the message
`k ++ " Must be of type " ++ name-of-declared-type`, produced when key `k`
is present in the config and fails its `isinstance` check, and nothing
otherwise. -/
def offendMsg (cfgd : List (String × PyVal)) (kv : String × PyType) : Option String :=
  match lookupKey cfgd kv.1 with
  | some v =>
    if isinstance v kv.2 then none
    else some (kv.1 ++ " Must be of type " ++ typeName kv.2)
  | none => none

/-- `validate_config(config)`: collect one message per offending known
key; raise `TypeError` with all of them joined when any exists, else
return `True`. -/
def validate_config (cfgd : List (String × PyVal)) : Except String Bool :=
  let result := validator.filterMap (offendMsg cfgd)
  if result = [] then Except.ok true
  else Except.error (String.intercalate osLinesep result)

/-- A labels string made of exactly `n` pipe-joined `label_<word>:<word>`
pairs. -/
def labelShape (n : Nat) (l : String) : Prop :=
  ∃ parts : List String, parts.length = n ∧
    (∀ e ∈ parts, ∃ a b, e = "label_" ++ a ++ ":" ++ b) ∧
    l = String.intercalate "|" parts

/-- The cardinality contract for one child list: the configured maximum
exactly in fixed mode, within `[1, maximum]` in randomized mode. -/
def countProp (rand : Bool) (mx n : Nat) : Prop :=
  if rand then 1 ≤ n ∧ n ≤ mx else n = mx

/-- The per-pod numeric contract against the owning node's cores and
memory, plus the `pod_seconds` window and step. -/
def PodProp (cfg : Config) (rand : Bool) (cores memory : Nat) (p : Pod) : Prop :=
  (rand = false →
    p.cpu_request = cores ∧ p.cpu_limit = cores ∧
    p.mem_request_gig = memory ∧ p.mem_limit_gig = memory ∧
    p.pod_seconds = cfg.max_node_namespace_pod_seconds) ∧
  (rand = true →
    (1 ≤ p.cpu_request ∧ p.cpu_request ≤ cores) ∧
    (1 ≤ p.cpu_limit ∧ p.cpu_limit ≤ cores) ∧
    (1 ≤ p.mem_request_gig ∧ p.mem_request_gig ≤ memory) ∧
    (1 ≤ p.mem_limit_gig ∧ p.mem_limit_gig ≤ memory) ∧
    (cfg.min_node_namespace_pod_seconds ≤ p.pod_seconds ∧
     p.pod_seconds ≤ cfg.max_node_namespace_pod_seconds ∧
     ∃ k, p.pod_seconds = cfg.min_node_namespace_pod_seconds + k * stepOf cfg)) ∧
  labelShape cfg.max_node_namespace_pod_labels p.labels

/-- The per-volume contract: label shape, claim cardinality, and for every
claim position the clamped pod reference into the owning namespace's pod
list. -/
def VolumeProp (cfg : Config) (rand : Bool) (pods : List Pod) (v : Volume) : Prop :=
  labelShape cfg.max_node_namespace_volume_labels v.labels ∧
  countProp rand cfg.max_node_namespace_volume_volume_claims v.volume_claims.length ∧
  (∀ j (hj : j < v.volume_claims.length),
    ∃ p, podAt pods j = some p ∧ (v.volume_claims.get ⟨j, hj⟩).pod_name = p.name) ∧
  (∀ vc ∈ v.volume_claims,
    labelShape cfg.max_node_namespace_volume_volume_claim_labels vc.labels)

/-- The per-namespace contract: pod and volume cardinalities and the
per-pod / per-volume contracts (volumes reference this namespace's own pod
list). -/
def NsProp (cfg : Config) (rand : Bool) (cores memory : Nat) (ns : Namespace) : Prop :=
  countProp rand cfg.max_node_namespace_pods ns.pods.length ∧
  countProp rand cfg.max_node_namespace_volumes ns.volumes.length ∧
  (∀ p ∈ ns.pods, PodProp cfg rand cores memory p) ∧
  (∀ v ∈ ns.volumes, VolumeProp cfg rand ns.pods v)

/-- The per-node contract: namespace cardinality and the per-namespace
contract against this node's cores and memory. -/
def NodeProp (cfg : Config) (rand : Bool) (nd : Node) : Prop :=
  countProp rand cfg.max_node_namespaces nd.namespaces.length ∧
  ∀ ns ∈ nd.namespaces, NsProp cfg rand nd.cpu_cores nd.memory_gig ns

/-- The whole-dataset contract. -/
def DataProp (cfg : Config) (rand : Bool) (d : Data) : Prop :=
  countProp rand cfg.max_nodes d.nodes.length ∧
  ∀ nd ∈ d.nodes, NodeProp cfg rand nd

/-- A small concrete configuration used to exercise the generator. -/
def cfgX : Config where
  start_date := ⟨2023, 1, 1⟩
  end_date := ⟨2023, 1, 31⟩
  storage_classes := ["gp2"]
  max_name_words := 1
  max_resource_id_length := 1
  max_nodes := 1
  max_node_cpu_cores := 1
  max_node_memory_gig := 2
  max_node_namespaces := 1
  max_node_namespace_pods := 1
  min_node_namespace_pod_seconds := 300
  max_node_namespace_pod_seconds := 3600
  max_node_namespace_pod_labels := 1
  max_node_namespace_volumes := 1
  max_node_namespace_volume_request_gig := 20
  max_node_namespace_volume_labels := 1
  max_node_namespace_volume_volume_claims := 2
  max_node_namespace_volume_volume_claim_labels := 1
  max_node_namespace_volume_volume_claim_capacity_gig := 20

/-- A concrete oracle for a fixed-mode run of `cfgX`. -/
def sX : S := ⟨[5], ["a", "b", "c", "d", "e", "f", "g", "h", "i", "j"], [], []⟩

/-- The dataset the fixed-mode run of `cfgX` on `sX` produces. -/
def dataX : Data :=
  ⟨"2023-01-01", "2023-01-31",
   [⟨"a", 1, 2, "5",
     [⟨"a-b",
       [⟨"a-b-pod-0", 1, 2, 1, 2, 3600, "label_c:d"⟩],
       [⟨"a-b-vol-0", "gp2", 20, "label_e:f",
         [⟨"a-b-vol-claim-0", "a-b-pod-0", "label_g:h", 20⟩,
          ⟨"a-b-vol-claim-1", "a-b-pod-0", "label_i:j", 20⟩]⟩]⟩]⟩]⟩

/-- The final state of the fixed-mode run of `cfgX` on `sX`. -/
def stateX : S :=
  ⟨[], [],
   ["a-b-vol-claim--1", "a-b-vol-claim--0", "a-b-vol--0", "a-b-pod--0", "a-b", "a"],
   ["5"]⟩

/-- A small concrete configuration for a randomized run. -/
def cfgR : Config where
  start_date := ⟨2023, 1, 1⟩
  end_date := ⟨2023, 1, 31⟩
  storage_classes := ["gp2"]
  max_name_words := 1
  max_resource_id_length := 1
  max_nodes := 1
  max_node_cpu_cores := 2
  max_node_memory_gig := 1
  max_node_namespaces := 1
  max_node_namespace_pods := 1
  min_node_namespace_pod_seconds := 300
  max_node_namespace_pod_seconds := 3600
  max_node_namespace_pod_labels := 1
  max_node_namespace_volumes := 1
  max_node_namespace_volume_request_gig := 1
  max_node_namespace_volume_labels := 1
  max_node_namespace_volume_volume_claims := 1
  max_node_namespace_volume_volume_claim_labels := 1
  max_node_namespace_volume_volume_claim_capacity_gig := 1

/-- A concrete oracle for a randomized run of `cfgR`; the pod draws make
`cpu_request = 2` and `cpu_limit = 1`. -/
def sR : S := ⟨[0, 1, 0, 0, 0, 0, 1, 0, 0, 0, 0, 0, 0, 0, 0, 0], ["a", "b", "c", "d", "e", "f", "g", "h"], [], []⟩

/-- The dataset the randomized run of `cfgR` on `sR` produces. -/
def dataR : Data :=
  ⟨"2023-01-01", "2023-01-31",
   [⟨"a", 2, 1, "0",
     [⟨"a-b",
       [⟨"a-b-pod-0", 2, 1, 1, 1, 300, "label_c:d"⟩],
       [⟨"a-b-vol-0", "gp2", 1, "label_e:f",
         [⟨"a-b-vol-claim-0", "a-b-pod-0", "label_g:h", 1⟩]⟩]⟩]⟩]⟩

/-- The final state of the randomized run of `cfgR` on `sR`. -/
def stateR : S :=
  ⟨[], [],
   ["a-b-vol-claim--0", "a-b-vol--0", "a-b-pod--0", "a-b", "a"],
   ["0"]⟩

/-- `cfgX` with no namespaces, used to expose the resource-id width slip:
the inclusive upper bound `10 ** 1` of the resource-id draw. -/
def cfgY : Config := { cfgX with max_node_namespaces := 0 }

/-- An oracle whose resource-id draw hits the inclusive bound `10`. -/
def sY : S := ⟨[10], ["a"], [], []⟩

/-- A successful stepped draw lies in `[lo, hi]` and is `lo` plus a
multiple of the step. -/
theorem randomIntStep_bounds {lo hi step : Nat} {s : S} {v : Nat} {s' : S}
    (h : randomIntStep lo hi step s = some (v, s')) :
    lo ≤ v ∧ v ≤ hi ∧ ∃ k, v = lo + k * step := by
  unfold randomIntStep at h
  split at h
  · exact absurd h (by simp)
  next hcond =>
    push_neg at hcond
    obtain ⟨hle, hstep⟩ := hcond
    split at h
    · exact absurd h (by simp)
    next d rest heq =>
      simp only [Option.some.injEq, Prod.mk.injEq] at h
      obtain ⟨hv, -⟩ := h
      subst hv
      refine ⟨Nat.le_add_right _ _, ?_, _, rfl⟩
      have hmod : d % ((hi - lo) / step + 1) ≤ (hi - lo) / step :=
        Nat.le_of_lt_succ (Nat.mod_lt _ (Nat.succ_pos _))
      have hmul : d % ((hi - lo) / step + 1) * step ≤ (hi - lo) / step * step :=
        Nat.mul_le_mul_right _ hmod
      have hdiv : (hi - lo) / step * step ≤ hi - lo := Nat.div_mul_le_self _ _
      omega

/-- A successful plain draw lies in `[lo, hi]`. -/
theorem randomInt_bounds {lo hi : Nat} {s : S} {v : Nat} {s' : S}
    (h : randomInt lo hi s = some (v, s')) : lo ≤ v ∧ v ≤ hi :=
  ⟨(randomIntStep_bounds h).1, (randomIntStep_bounds h).2.1⟩

/-- A successful word draw yields exactly the requested number of words. -/
theorem takeWords_len {n : Nat} {s : S} {ws : List String} {s' : S}
    (h : takeWords n s = some (ws, s')) : ws.length = n := by
  unfold takeWords at h
  split at h
  next hle =>
    simp only [Option.some.injEq, Prod.mk.injEq] at h
    obtain ⟨hw, -⟩ := h
    subst hw
    simpa using Nat.min_eq_left hle
  · exact absurd h (by simp)

/-- A successful `generate_labels` call produces exactly `n` pipe-joined
`label_<word>:<word>` pairs. -/
theorem generate_labels_shape {n : Nat} {s : S} {l : String} {s' : S}
    (h : generate_labels n s = some (l, s')) : labelShape n l := by
  unfold generate_labels at h
  split at h
  · exact absurd h (by simp)
  next ws1 s1 heq1 =>
    split at h
    · exact absurd h (by simp)
    next ws2 s2 heq2 =>
      simp only [Option.some.injEq, Prod.mk.injEq] at h
      obtain ⟨hl, -⟩ := h
      refine ⟨(ws1.zip ws2).map (fun e => "label_" ++ e.1 ++ ":" ++ e.2), ?_, ?_, hl.symm⟩
      · have h1 := takeWords_len heq1
        have h2 := takeWords_len heq2
        simp [List.length_zip, h1, h2]
      · intro e he
        obtain ⟨pair, -, rfl⟩ := List.mem_map.mp he
        exact ⟨pair.1, pair.2, rfl⟩

/-- A successful pass through the retry loop returns a candidate that was
absent from the cache and inserts exactly that candidate. -/
theorem nameLoop_cache {cfg : Config} {gen : Config → S → Option (String × S)}
    {dynamic : Bool} {cache : List String} :
    ∀ {fuel : Nat} {pfx sfx : String} {s : S} {nn : String} {c : List String} {s' : S},
    nameLoop cfg gen dynamic cache fuel pfx sfx s = some (nn, c, s') →
    nn ∉ cache ∧ c = nn :: cache := by
  intro fuel
  induction fuel with
  | zero => intro pfx sfx s nn c s' h; exact absurd h (by simp [nameLoop])
  | succ fuel ih =>
    intro pfx sfx s nn c s' h
    rw [nameLoop] at h
    split at h
    · exact absurd h (by simp)
    next mid s1 heq =>
      split at h
      · exact ih h
      next hnotmem =>
        simp only [Option.some.injEq, Prod.mk.injEq] at h
        obtain ⟨h1, h2, -⟩ := h
        subst h1; subst h2
        exact ⟨hnotmem, rfl⟩

/-- A word draw only consumes the word stream: the caches are unchanged. -/
theorem takeWords_state {n : Nat} {s : S} {ws : List String} {s' : S}
    (h : takeWords n s = some (ws, s')) :
    s'.seenNames = s.seenNames ∧ s'.seenResourceIds = s.seenResourceIds := by
  unfold takeWords at h
  split at h
  · simp only [Option.some.injEq, Prod.mk.injEq] at h
    obtain ⟨-, hs⟩ := h
    subst hs
    exact ⟨rfl, rfl⟩
  · exact absurd h (by simp)

/-- An integer draw only consumes the integer stream: the caches are
unchanged. -/
theorem randomIntStep_state {lo hi step : Nat} {s : S} {v : Nat} {s' : S}
    (h : randomIntStep lo hi step s = some (v, s')) :
    s'.seenNames = s.seenNames ∧ s'.seenResourceIds = s.seenResourceIds := by
  unfold randomIntStep at h
  split at h
  · exact absurd h (by simp)
  · split at h
    · exact absurd h (by simp)
    · simp only [Option.some.injEq, Prod.mk.injEq] at h
      obtain ⟨-, hs⟩ := h
      subst hs
      exact ⟨rfl, rfl⟩

/-- The word generator never touches the uniqueness caches. -/
theorem generate_words_caches {cfg : Config} {s : S} {m : String} {s' : S}
    (h : generate_words cfg s = some (m, s')) :
    s'.seenNames = s.seenNames ∧ s'.seenResourceIds = s.seenResourceIds := by
  unfold generate_words at h
  split at h
  · exact absurd h (by simp)
  next ws1 s1 heq =>
    simp only [Option.some.injEq, Prod.mk.injEq] at h
    obtain ⟨-, hs⟩ := h
    subst hs
    exact takeWords_state heq

/-- The number generator never touches the uniqueness caches. -/
theorem generate_number_str_caches {cfg : Config} {s : S} {m : String} {s' : S}
    (h : generate_number_str cfg s = some (m, s')) :
    s'.seenNames = s.seenNames ∧ s'.seenResourceIds = s.seenResourceIds := by
  unfold generate_number_str at h
  split at h
  · exact absurd h (by simp)
  next v s1 heq =>
    simp only [Option.some.injEq, Prod.mk.injEq] at h
    obtain ⟨-, hs⟩ := h
    subst hs
    exact randomIntStep_state heq

/-- The retry loop never touches the caches when its generator does not. -/
theorem nameLoop_caches {cfg : Config} {gen : Config → S → Option (String × S)}
    {dynamic : Bool} {cache : List String}
    (hgen : ∀ {t : S} {m : String} {t' : S}, gen cfg t = some (m, t') →
      t'.seenNames = t.seenNames ∧ t'.seenResourceIds = t.seenResourceIds) :
    ∀ {fuel : Nat} {pfx sfx : String} {s : S} {nn : String} {c : List String} {s' : S},
    nameLoop cfg gen dynamic cache fuel pfx sfx s = some (nn, c, s') →
    s'.seenNames = s.seenNames ∧ s'.seenResourceIds = s.seenResourceIds := by
  intro fuel
  induction fuel with
  | zero => intro pfx sfx s nn c s' h; exact absurd h (by simp [nameLoop])
  | succ fuel ih =>
    intro pfx sfx s nn c s' h
    rw [nameLoop] at h
    split at h
    · exact absurd h (by simp)
    next mid s1 heq =>
      have h1 : s1.seenNames = s.seenNames ∧ s1.seenResourceIds = s.seenResourceIds := by
        unfold genMid at heq
        split at heq
        · exact hgen heq
        · simp only [Option.some.injEq, Prod.mk.injEq] at heq
          obtain ⟨-, hs⟩ := heq
          subst hs
          exact ⟨rfl, rfl⟩
      split at h
      · have h2 := ih h
        exact ⟨h2.1.trans h1.1, h2.2.trans h1.2⟩
      · simp only [Option.some.injEq, Prod.mk.injEq] at h
        obtain ⟨-, -, hs⟩ := h
        subst hs
        exact h1

/-- A successful `generate_name` call leaves the resource-id cache alone,
inserts into `SEEN_NAMES` exactly one candidate that was absent from it,
and returns the dash-collapsed candidate. -/
theorem generate_name_spec {cfg : Config} {pfx sfx : String} {dyn : Bool} {s : S}
    {r : String} {s' : S} (h : generate_name cfg pfx sfx dyn s = some (r, s')) :
    s'.seenResourceIds = s.seenResourceIds ∧
    ∃ cand, cand ∉ s.seenNames ∧ s'.seenNames = cand :: s.seenNames ∧
      r = collapseDashes cand := by
  unfold generate_name generate_name_with at h
  split at h
  · exact absurd h (by simp)
  next nn c t heq =>
    simp only [Option.some.injEq, Prod.mk.injEq] at h
    obtain ⟨hr, hs⟩ := h
    subst hs
    obtain ⟨hnot, hc⟩ := nameLoop_cache heq
    have hkeep := nameLoop_caches (fun hg => generate_words_caches hg) heq
    exact ⟨hkeep.2, nn, hnot, by simp [hc], hr.symm⟩

/-- A successful `generate_resource_id` call leaves the name cache alone,
inserts into `SEEN_RESOURCE_IDS` exactly one candidate that was absent
from it, and returns the dash-collapsed candidate. -/
theorem generate_resource_id_spec {cfg : Config} {pfx sfx : String} {dyn : Bool} {s : S}
    {r : String} {s' : S} (h : generate_resource_id cfg pfx sfx dyn s = some (r, s')) :
    s'.seenNames = s.seenNames ∧
    ∃ cand, cand ∉ s.seenResourceIds ∧ s'.seenResourceIds = cand :: s.seenResourceIds ∧
      r = collapseDashes cand := by
  unfold generate_resource_id generate_name_with at h
  split at h
  · exact absurd h (by simp)
  next nn c t heq =>
    simp only [Option.some.injEq, Prod.mk.injEq] at h
    obtain ⟨hr, hs⟩ := h
    subst hs
    obtain ⟨hnot, hc⟩ := nameLoop_cache heq
    have hkeep := nameLoop_caches (fun hg => generate_number_str_caches hg) heq
    exact ⟨hkeep.1, nn, hnot, by simp [hc], hr.symm⟩

/-- The per-pod draw tuple satisfies the fixed-mode equalities and the
randomized-mode bounds. -/
theorem podNumbers_spec {cfg : Config} {rand : Bool} {cores memory : Nat} {s : S}
    {vals : Nat × Nat × Nat × Nat × Nat} {s' : S}
    (h : podNumbers cfg rand cores memory s = some (vals, s')) :
    (rand = false → vals = (cores, memory, cores, memory, cfg.max_node_namespace_pod_seconds)) ∧
    (rand = true →
      (1 ≤ vals.1 ∧ vals.1 ≤ cores) ∧
      (1 ≤ vals.2.1 ∧ vals.2.1 ≤ memory) ∧
      (1 ≤ vals.2.2.1 ∧ vals.2.2.1 ≤ cores) ∧
      (1 ≤ vals.2.2.2.1 ∧ vals.2.2.2.1 ≤ memory) ∧
      (cfg.min_node_namespace_pod_seconds ≤ vals.2.2.2.2 ∧
       vals.2.2.2.2 ≤ cfg.max_node_namespace_pod_seconds ∧
       ∃ k, vals.2.2.2.2 = cfg.min_node_namespace_pod_seconds + k * stepOf cfg)) := by
  unfold podNumbers at h
  split at h
  next hrand =>
    split at h
    · exact absurd h (by simp)
    next a s1 ha =>
      split at h
      · exact absurd h (by simp)
      next b s2 hb =>
        split at h
        · exact absurd h (by simp)
        next c s3 hc =>
          split at h
          · exact absurd h (by simp)
          next d s4 hd =>
            split at h
            · exact absurd h (by simp)
            next e s5 he =>
              simp only [Option.some.injEq, Prod.mk.injEq] at h
              obtain ⟨hv, -⟩ := h
              subst hv
              refine ⟨fun hf => by simp [hrand] at hf, fun _ => ?_⟩
              obtain ⟨he1, he2, k, he3⟩ := randomIntStep_bounds he
              exact ⟨randomInt_bounds ha, randomInt_bounds hb, randomInt_bounds hc,
                randomInt_bounds hd, he1, he2, k, he3⟩
  next hrand =>
    simp only [Option.some.injEq, Prod.mk.injEq] at h
    obtain ⟨hv, -⟩ := h
    subst hv
    refine ⟨fun _ => rfl, fun ht => ?_⟩
    simp only [Bool.not_eq_true] at hrand
    rw [ht] at hrand
    exact absurd hrand (by simp)

/-- Structural contract of the volume-claim loop: one claim per index, the
clamped positional pod reference, and the label shape. -/
theorem buildVolumeClaims_spec {cfg : Config} {rand : Bool} {nsName : String}
    {pods : List Pod} :
    ∀ {ixs : List Nat} {s : S} {cls : List VolumeClaim} {s' : S},
    buildVolumeClaims cfg rand nsName pods ixs s = some (cls, s') →
    cls.length = ixs.length ∧
    (∀ j (hj : j < ixs.length) (hj2 : j < cls.length),
      ∃ p, podAt pods (ixs.get ⟨j, hj⟩) = some p ∧
        (cls.get ⟨j, hj2⟩).pod_name = p.name) ∧
    (∀ vc ∈ cls, labelShape cfg.max_node_namespace_volume_volume_claim_labels vc.labels) := by
  intro ixs
  induction ixs with
  | nil =>
    intro s cls s' h
    simp only [buildVolumeClaims, Option.some.injEq, Prod.mk.injEq] at h
    obtain ⟨hcls, -⟩ := h
    subst hcls
    refine ⟨rfl, fun j hj => absurd hj (by simp), fun vc hvc => absurd hvc (by simp)⟩
  | cons ix ixs ih =>
    intro s cls s' h
    rw [buildVolumeClaims] at h
    split at h
    · exact absurd h (by simp)
    next cap s1 hcap =>
      split at h
      · exact absurd h (by simp)
      next pod hpod =>
        split at h
        · exact absurd h (by simp)
        next nm s2 hnm =>
          split at h
          · exact absurd h (by simp)
          next lbl s3 hlbl =>
            split at h
            · exact absurd h (by simp)
            next rest s4 hrest =>
              simp only [Option.some.injEq, Prod.mk.injEq] at h
              obtain ⟨hcls, -⟩ := h
              subst hcls
              obtain ⟨ihlen, ihpos, ihlbl⟩ := ih hrest
              refine ⟨by simp [ihlen], ?_, ?_⟩
              · intro j hj hj2
                cases j with
                | zero => exact ⟨pod, hpod, rfl⟩
                | succ j' =>
                  have hj' : j' < ixs.length := by simpa using hj
                  have hj2' : j' < rest.length := by simpa using hj2
                  obtain ⟨p, hp1, hp2⟩ := ihpos j' hj' hj2'
                  exact ⟨p, hp1, hp2⟩
              · intro vc hvc
                rcases List.mem_cons.mp hvc with hvc | hvc
                · subst hvc
                  exact generate_labels_shape hlbl
                · exact ihlbl vc hvc

/-- Structural contract of the pod loop: one pod per index, each
satisfying the per-pod numeric and label contract. -/
theorem buildPods_spec {cfg : Config} {rand : Bool} {nsName : String} {cores memory : Nat} :
    ∀ {ixs : List Nat} {s : S} {ps : List Pod} {s' : S},
    buildPods cfg rand nsName cores memory ixs s = some (ps, s') →
    ps.length = ixs.length ∧ ∀ p ∈ ps, PodProp cfg rand cores memory p := by
  intro ixs
  induction ixs with
  | nil =>
    intro s ps s' h
    simp only [buildPods, Option.some.injEq, Prod.mk.injEq] at h
    obtain ⟨hps, -⟩ := h
    subst hps
    exact ⟨rfl, fun p hp => absurd hp (by simp)⟩
  | cons ix ixs ih =>
    intro s ps s' h
    rw [buildPods] at h
    split at h
    · exact absurd h (by simp)
    next cpuReq memReq cpuLim memLim podSec s1 hvals =>
      split at h
      · exact absurd h (by simp)
      next nm s2 hnm =>
        split at h
        · exact absurd h (by simp)
        next lbl s3 hlbl =>
          split at h
          · exact absurd h (by simp)
          next rest s4 hrest =>
            simp only [Option.some.injEq, Prod.mk.injEq] at h
            obtain ⟨hps, -⟩ := h
            subst hps
            obtain ⟨ihlen, ihprop⟩ := ih hrest
            refine ⟨by simp [ihlen], ?_⟩
            intro p hp
            rcases List.mem_cons.mp hp with hp | hp
            · subst hp
              obtain ⟨hfix, hrnd⟩ := podNumbers_spec hvals
              refine ⟨?_, ?_, generate_labels_shape hlbl⟩
              · intro hf
                have := hfix hf
                simp only [Prod.mk.injEq] at this
                obtain ⟨h1, h2, h3, h4, h5⟩ := this
                exact ⟨h1, h3, h2, h4, h5⟩
              · intro ht
                obtain ⟨h1, h2, h3, h4, h5⟩ := hrnd ht
                exact ⟨h1, h3, h2, h4, h5⟩
            · exact ihprop p hp

/-- A cardinality drawn by the fixed/randomized split satisfies
`countProp`. -/
theorem countDraw_spec {rand : Bool} {mx : Nat} {s : S} {n : Nat} {s1 : S}
    (h : (if rand then randomInt 1 mx s else some (mx, s)) = some (n, s1)) :
    countProp rand mx n := by
  cases rand with
  | false =>
    simp only [if_neg Bool.false_ne_true, Option.some.injEq, Prod.mk.injEq] at h
    obtain ⟨hn, -⟩ := h
    simpa [countProp] using hn.symm
  | true =>
    simp only [if_pos rfl] at h
    simpa [countProp] using randomInt_bounds h

/-- Structural contract of the volume loop: one volume per index, each
satisfying the per-volume contract against the supplied pod list. -/
theorem buildVolumes_spec {cfg : Config} {rand : Bool} {nsName : String}
    {pods : List Pod} :
    ∀ {ixs : List Nat} {s : S} {vols : List Volume} {s' : S},
    buildVolumes cfg rand nsName pods ixs s = some (vols, s') →
    vols.length = ixs.length ∧ ∀ v ∈ vols, VolumeProp cfg rand pods v := by
  intro ixs
  induction ixs with
  | nil =>
    intro s vols s' h
    simp only [buildVolumes, Option.some.injEq, Prod.mk.injEq] at h
    obtain ⟨hv, -⟩ := h
    subst hv
    exact ⟨rfl, fun v hv => absurd hv (by simp)⟩
  | cons ix ixs ih =>
    intro s vols s' h
    rw [buildVolumes] at h
    split at h
    · exact absurd h (by simp)
    next sc s1 hsc =>
      split at h
      · exact absurd h (by simp)
      next vreq s2 hvreq =>
        split at h
        · exact absurd h (by simp)
        next nm s3 hnm =>
          split at h
          · exact absurd h (by simp)
          next lbl s4 hlbl =>
            split at h
            · exact absurd h (by simp)
            next nclaims s5 hnc =>
              split at h
              · exact absurd h (by simp)
              next claims s6 hclaims =>
                split at h
                · exact absurd h (by simp)
                next rest s7 hrest =>
                  simp only [Option.some.injEq, Prod.mk.injEq] at h
                  obtain ⟨hv, -⟩ := h
                  subst hv
                  obtain ⟨ihlen, ihprop⟩ := ih hrest
                  refine ⟨by simp [ihlen], ?_⟩
                  intro v hv
                  rcases List.mem_cons.mp hv with hv | hv
                  · subst hv
                    obtain ⟨hclen, hcpos, hclbl⟩ := buildVolumeClaims_spec hclaims
                    have hlen : claims.length = nclaims := by
                      simpa [List.length_range] using hclen
                    refine ⟨generate_labels_shape hlbl, ?_, ?_, hclbl⟩
                    · show countProp rand cfg.max_node_namespace_volume_volume_claims claims.length
                      rw [hlen]
                      exact countDraw_spec hnc
                    · intro j hj
                      have hjc : j < claims.length := hj
                      have hj' : j < (List.range nclaims).length := by
                        rw [List.length_range]
                        omega
                      obtain ⟨p, hp1, hp2⟩ := hcpos j hj' hjc
                      refine ⟨p, ?_, hp2⟩
                      have hrange : (List.range nclaims).get ⟨j, hj'⟩ = j := by
                        simp [List.get_eq_getElem, List.getElem_range]
                      rwa [hrange] at hp1
                  · exact ihprop v hv

/-- Structural contract of the namespace loop: one namespace per index,
each satisfying the per-namespace contract. -/
theorem buildNamespaces_spec {cfg : Config} {rand : Bool} {nodeName : String}
    {cores memory : Nat} :
    ∀ {ixs : List Nat} {s : S} {nss : List Namespace} {s' : S},
    buildNamespaces cfg rand nodeName cores memory ixs s = some (nss, s') →
    nss.length = ixs.length ∧ ∀ ns ∈ nss, NsProp cfg rand cores memory ns := by
  intro ixs
  induction ixs with
  | nil =>
    intro s nss s' h
    simp only [buildNamespaces, Option.some.injEq, Prod.mk.injEq] at h
    obtain ⟨hn, -⟩ := h
    subst hn
    exact ⟨rfl, fun ns hns => absurd hns (by simp)⟩
  | cons ix ixs ih =>
    intro s nss s' h
    rw [buildNamespaces] at h
    split at h
    · exact absurd h (by simp)
    next nm s1 hnm =>
      split at h
      · exact absurd h (by simp)
      next npods s2 hnp =>
        split at h
        · exact absurd h (by simp)
        next pods s3 hpods =>
          split at h
          · exact absurd h (by simp)
          next nvols s4 hnv =>
            split at h
            · exact absurd h (by simp)
            next vols s5 hvols =>
              split at h
              · exact absurd h (by simp)
              next rest s6 hrest =>
                simp only [Option.some.injEq, Prod.mk.injEq] at h
                obtain ⟨hn, -⟩ := h
                subst hn
                obtain ⟨ihlen, ihprop⟩ := ih hrest
                refine ⟨by simp [ihlen], ?_⟩
                intro ns hns
                rcases List.mem_cons.mp hns with hns | hns
                · subst hns
                  obtain ⟨hplen, hpprop⟩ := buildPods_spec hpods
                  obtain ⟨hvlen, hvprop⟩ := buildVolumes_spec hvols
                  have hpl : pods.length = npods := by simpa [List.length_range] using hplen
                  have hvl : vols.length = nvols := by simpa [List.length_range] using hvlen
                  refine ⟨?_, ?_, hpprop, hvprop⟩
                  · show countProp rand cfg.max_node_namespace_pods pods.length
                    rw [hpl]
                    exact countDraw_spec hnp
                  · show countProp rand cfg.max_node_namespace_volumes vols.length
                    rw [hvl]
                    exact countDraw_spec hnv
                · exact ihprop ns hns

/-- Structural contract of the node loop: one node per index, each
satisfying the per-node contract. -/
theorem buildNodes_spec {cfg : Config} {rand : Bool} :
    ∀ {ixs : List Nat} {s : S} {nds : List Node} {s' : S},
    buildNodes cfg rand ixs s = some (nds, s') →
    nds.length = ixs.length ∧ ∀ nd ∈ nds, NodeProp cfg rand nd := by
  intro ixs
  induction ixs with
  | nil =>
    intro s nds s' h
    simp only [buildNodes, Option.some.injEq, Prod.mk.injEq] at h
    obtain ⟨hn, -⟩ := h
    subst hn
    exact ⟨rfl, fun nd hnd => absurd hnd (by simp)⟩
  | cons ix ixs ih =>
    intro s nds s' h
    rw [buildNodes] at h
    split at h
    · exact absurd h (by simp)
    next cores memory s1 hcm =>
      split at h
      · exact absurd h (by simp)
      next nm s2 hnm =>
        split at h
        · exact absurd h (by simp)
        next rid s3 hrid =>
          split at h
          · exact absurd h (by simp)
          next nns s4 hnn =>
            split at h
            · exact absurd h (by simp)
            next nss s5 hnss =>
              split at h
              · exact absurd h (by simp)
              next rest s6 hrest =>
                simp only [Option.some.injEq, Prod.mk.injEq] at h
                obtain ⟨hn, -⟩ := h
                subst hn
                obtain ⟨ihlen, ihprop⟩ := ih hrest
                refine ⟨by simp [ihlen], ?_⟩
                intro nd hnd
                rcases List.mem_cons.mp hnd with hnd | hnd
                · subst hnd
                  obtain ⟨hnlen, hnprop⟩ := buildNamespaces_spec hnss
                  have hnl : nss.length = nns := by simpa [List.length_range] using hnlen
                  refine ⟨?_, hnprop⟩
                  show countProp rand cfg.max_node_namespaces nss.length
                  rw [hnl]
                  exact countDraw_spec hnn
                · exact ihprop nd hnd

/-- The master contract of `build_data`: every successful run satisfies
the whole-dataset contract. -/
theorem build_data_spec {cfg : Config} {rand : Bool} {s : S} {d : Data} {s' : S}
    (h : build_data cfg rand s = some (d, s')) : DataProp cfg rand d := by
  unfold build_data at h
  split at h
  · exact absurd h (by simp)
  next nNodes s1 hdraw =>
    split at h
    · exact absurd h (by simp)
    next nodes s2 hnodes =>
      simp only [Option.some.injEq, Prod.mk.injEq] at h
      obtain ⟨hd, -⟩ := h
      subst hd
      obtain ⟨hlen, hprop⟩ := buildNodes_spec hnodes
      have hnl : nodes.length = nNodes := by simpa [List.length_range] using hlen
      refine ⟨?_, hprop⟩
      show countProp rand cfg.max_nodes nodes.length
      rw [hnl]
      exact countDraw_spec hdraw

/-- C2: every VolumeClaim produced by `build_data` references the Pod at
the claim's own index in the owning Namespace's pod list when that index
is in range, and the last Pod otherwise; the referenced pod name exists
among the owning Namespace's Pods. -/
theorem C2_claim_pod_reference (cfg : Config) (rand : Bool) (s : S) (d : Data) (s' : S)
    (h : build_data cfg rand s = some (d, s')) :
    ∀ nd ∈ d.nodes, ∀ ns ∈ nd.namespaces, ∀ v ∈ ns.volumes,
    ∀ j (hj : j < v.volume_claims.length),
      ∃ p ∈ ns.pods,
        (v.volume_claims.get ⟨j, hj⟩).pod_name = p.name ∧
        (v.volume_claims.get ⟨j, hj⟩).pod_name ∈ ns.pods.map Pod.name ∧
        (∀ hlt : j < ns.pods.length, p = ns.pods.get ⟨j, hlt⟩) ∧
        (ns.pods.length ≤ j → ∀ hne : ns.pods ≠ [], p = ns.pods.getLast hne) := by
  intro nd hnd ns hns v hv j hj
  obtain ⟨-, hnodes⟩ := build_data_spec h
  obtain ⟨-, hnss⟩ := hnodes nd hnd
  obtain ⟨-, -, -, hvols⟩ := hnss ns hns
  obtain ⟨-, -, hpos, -⟩ := hvols v hv
  obtain ⟨p, hp1, hp2⟩ := hpos j hj
  unfold podAt at hp1
  by_cases hcase : ns.pods.length ≤ j
  · rw [if_pos hcase] at hp1
    have hne : ns.pods ≠ [] := by
      intro hnil
      rw [hnil] at hp1
      simp at hp1
    rw [List.getLast?_eq_getLast _ hne] at hp1
    injection hp1 with hp1
    have hmem : p ∈ ns.pods := hp1 ▸ List.getLast_mem hne
    refine ⟨p, hmem, hp2, ?_, ?_, ?_⟩
    · exact hp2 ▸ List.mem_map_of_mem Pod.name hmem
    · intro hlt
      omega
    · intro _ _
      exact hp1.symm
  · push_neg at hcase
    rw [if_neg (by omega)] at hp1
    rw [List.get?_eq_get hcase] at hp1
    injection hp1 with hp1
    have hmem : p ∈ ns.pods := hp1 ▸ List.get_mem ns.pods j hcase
    refine ⟨p, hmem, hp2, ?_, ?_, ?_⟩
    · exact hp2 ▸ List.mem_map_of_mem Pod.name hmem
    · intro _
      exact hp1.symm
    · intro hge
      omega

/-- C2 witness: the fixed-mode run of `cfgX` (two claims over one pod)
satisfies the clamped pod-reference contract. -/
theorem C2_claim_pod_reference_witness :
    build_data cfgX false sX = some (dataX, stateX) ∧
    (∀ nd ∈ dataX.nodes, ∀ ns ∈ nd.namespaces, ∀ v ∈ ns.volumes,
      ∀ j (hj : j < v.volume_claims.length),
        ∃ p ∈ ns.pods,
          (v.volume_claims.get ⟨j, hj⟩).pod_name = p.name ∧
          (v.volume_claims.get ⟨j, hj⟩).pod_name ∈ ns.pods.map Pod.name ∧
          (∀ hlt : j < ns.pods.length, p = ns.pods.get ⟨j, hlt⟩) ∧
          (ns.pods.length ≤ j → ∀ hne : ns.pods ≠ [], p = ns.pods.getLast hne)) :=
  ⟨rfl, C2_claim_pod_reference cfgX false sX dataX stateX rfl⟩

/-- C3: in fixed mode every child count equals the configured maximum; in
randomized mode every child count lies in `[1, configured maximum]`. -/
theorem C3_cardinality_bounds (cfg : Config) (rand : Bool) (s : S) (d : Data) (s' : S)
    (h : build_data cfg rand s = some (d, s')) :
    countProp rand cfg.max_nodes d.nodes.length ∧
    ∀ nd ∈ d.nodes,
      countProp rand cfg.max_node_namespaces nd.namespaces.length ∧
      ∀ ns ∈ nd.namespaces,
        countProp rand cfg.max_node_namespace_pods ns.pods.length ∧
        countProp rand cfg.max_node_namespace_volumes ns.volumes.length ∧
        ∀ v ∈ ns.volumes,
          countProp rand cfg.max_node_namespace_volume_volume_claims
            v.volume_claims.length := by
  obtain ⟨hcnt, hnodes⟩ := build_data_spec h
  refine ⟨hcnt, fun nd hnd => ?_⟩
  obtain ⟨hncnt, hnss⟩ := hnodes nd hnd
  refine ⟨hncnt, fun ns hns => ?_⟩
  obtain ⟨hp, hv, hpods, hvols⟩ := hnss ns hns
  exact ⟨hp, hv, fun v hvm => (hvols v hvm).2.1⟩

/-- C3 witness: the randomized run of `cfgR` has every count within its
configured bound. -/
theorem C3_cardinality_bounds_witness :
    build_data cfgR true sR = some (dataR, stateR) ∧
    countProp true cfgR.max_nodes dataR.nodes.length :=
  ⟨rfl, (C3_cardinality_bounds cfgR true sR dataR stateR rfl).1⟩

/-- C4: fixed-mode pods take the owning node's cores and memory for both
request and limit; randomized-mode pods draw all four values independently
in `[1, node bound]` — and a run exists in which a pod's cpu request
exceeds its cpu limit, so no request-limit relation is imposed. -/
theorem C4_pod_resource_bounds (cfg : Config) (rand : Bool) (s : S) (d : Data) (s' : S)
    (h : build_data cfg rand s = some (d, s')) :
    (∀ nd ∈ d.nodes, ∀ ns ∈ nd.namespaces, ∀ p ∈ ns.pods,
      (rand = false →
        p.cpu_request = nd.cpu_cores ∧ p.cpu_limit = nd.cpu_cores ∧
        p.mem_request_gig = nd.memory_gig ∧ p.mem_limit_gig = nd.memory_gig) ∧
      (rand = true →
        (1 ≤ p.cpu_request ∧ p.cpu_request ≤ nd.cpu_cores) ∧
        (1 ≤ p.cpu_limit ∧ p.cpu_limit ≤ nd.cpu_cores) ∧
        (1 ≤ p.mem_request_gig ∧ p.mem_request_gig ≤ nd.memory_gig) ∧
        (1 ≤ p.mem_limit_gig ∧ p.mem_limit_gig ≤ nd.memory_gig))) ∧
    (∃ t dR2 t', build_data cfgR true t = some (dR2, t') ∧
      ∃ nd2 ∈ dR2.nodes, ∃ ns2 ∈ nd2.namespaces, ∃ p2 ∈ ns2.pods,
        p2.cpu_limit < p2.cpu_request) := by
  constructor
  · intro nd hnd ns hns p hp
    obtain ⟨-, hnodes⟩ := build_data_spec h
    obtain ⟨-, hnss⟩ := hnodes nd hnd
    obtain ⟨-, -, hpods, -⟩ := hnss ns hns
    obtain ⟨hfix, hrnd, -⟩ := hpods p hp
    constructor
    · intro hf
      obtain ⟨h1, h2, h3, h4, -⟩ := hfix hf
      exact ⟨h1, h2, h3, h4⟩
    · intro ht
      obtain ⟨h1, h2, h3, h4, -⟩ := hrnd ht
      exact ⟨h1, h2, h3, h4⟩
  · exact ⟨sR, dataR, stateR, rfl, by decide⟩

/-- C4 witness: the randomized run of `cfgR` satisfies the pod resource
bounds. -/
theorem C4_pod_resource_bounds_witness :
    build_data cfgR true sR = some (dataR, stateR) ∧
    (∃ t dR2 t', build_data cfgR true t = some (dR2, t') ∧
      ∃ nd2 ∈ dR2.nodes, ∃ ns2 ∈ nd2.namespaces, ∃ p2 ∈ ns2.pods,
        p2.cpu_limit < p2.cpu_request) :=
  ⟨rfl, (C4_pod_resource_bounds cfgR true sR dataR stateR rfl).2⟩

/-- C5: randomized-mode `pod_seconds` lies in the configured window and is
the configured minimum plus a multiple of the step
(`max // 10`, or 1800 when that quotient is zero); fixed-mode
`pod_seconds` equals the configured maximum. -/
theorem C5_pod_seconds_window (cfg : Config) (rand : Bool) (s : S) (d : Data) (s' : S)
    (h : build_data cfg rand s = some (d, s')) :
    ∀ nd ∈ d.nodes, ∀ ns ∈ nd.namespaces, ∀ p ∈ ns.pods,
      (rand = false → p.pod_seconds = cfg.max_node_namespace_pod_seconds) ∧
      (rand = true →
        cfg.min_node_namespace_pod_seconds ≤ p.pod_seconds ∧
        p.pod_seconds ≤ cfg.max_node_namespace_pod_seconds ∧
        ∃ k, p.pod_seconds = cfg.min_node_namespace_pod_seconds + k * stepOf cfg) := by
  intro nd hnd ns hns p hp
  obtain ⟨-, hnodes⟩ := build_data_spec h
  obtain ⟨-, hnss⟩ := hnodes nd hnd
  obtain ⟨-, -, hpods, -⟩ := hnss ns hns
  obtain ⟨hfix, hrnd, -⟩ := hpods p hp
  exact ⟨fun hf => (hfix hf).2.2.2.2, fun ht => (hrnd ht).2.2.2.2⟩

/-- C5 witness: the randomized run of `cfgR` keeps `pod_seconds` inside
the stepped window. -/
theorem C5_pod_seconds_window_witness :
    build_data cfgR true sR = some (dataR, stateR) ∧
    (∀ nd ∈ dataR.nodes, ∀ ns ∈ nd.namespaces, ∀ p ∈ ns.pods,
      (true = false → p.pod_seconds = cfgR.max_node_namespace_pod_seconds) ∧
      (true = true →
        cfgR.min_node_namespace_pod_seconds ≤ p.pod_seconds ∧
        p.pod_seconds ≤ cfgR.max_node_namespace_pod_seconds ∧
        ∃ k, p.pod_seconds = cfgR.min_node_namespace_pod_seconds + k * stepOf cfgR)) :=
  ⟨rfl, C5_pod_seconds_window cfgR true sR dataR stateR rfl⟩

/-- C10: every pod, volume, and volume claim carries exactly the
configured number of pipe-delimited `label_<word>:<word>` pairs, in both
modes. -/
theorem C10_label_counts (cfg : Config) (rand : Bool) (s : S) (d : Data) (s' : S)
    (h : build_data cfg rand s = some (d, s')) :
    ∀ nd ∈ d.nodes, ∀ ns ∈ nd.namespaces,
      (∀ p ∈ ns.pods, labelShape cfg.max_node_namespace_pod_labels p.labels) ∧
      (∀ v ∈ ns.volumes,
        labelShape cfg.max_node_namespace_volume_labels v.labels ∧
        ∀ vc ∈ v.volume_claims,
          labelShape cfg.max_node_namespace_volume_volume_claim_labels vc.labels) := by
  intro nd hnd ns hns
  obtain ⟨-, hnodes⟩ := build_data_spec h
  obtain ⟨-, hnss⟩ := hnodes nd hnd
  obtain ⟨-, -, hpods, hvols⟩ := hnss ns hns
  refine ⟨fun p hp => (hpods p hp).2.2, fun v hv => ?_⟩
  obtain ⟨hvl, -, -, hcl⟩ := hvols v hv
  exact ⟨hvl, hcl⟩

/-- C10 witness: the fixed-mode run of `cfgX` has the configured label
counts everywhere. -/
theorem C10_label_counts_witness :
    build_data cfgX false sX = some (dataX, stateX) ∧
    (∀ nd ∈ dataX.nodes, ∀ ns ∈ nd.namespaces,
      ∀ p ∈ ns.pods, labelShape cfgX.max_node_namespace_pod_labels p.labels) :=
  ⟨rfl, fun nd hnd ns hns =>
    (C10_label_counts cfgX false sX dataX stateX rfl nd hnd ns hns).1⟩

/-- C1 counterexample: two successive `generate_name` calls (the second
starting from the first call's final state) return the same string.  The
cache records the raw candidate (`"p--x"` on the retry) but the caller
receives the dash-collapsed string, so returned names repeat. -/
theorem C1_returned_names_repeat :
    ∃ r s1 s2,
      generate_name cfgX "p" "" true ⟨[], ["x", "x", "x"], [], []⟩ = some (r, s1) ∧
      generate_name cfgX "p" "" true s1 = some (r, s2) :=
  ⟨"p-x", ⟨[], ["x", "x"], ["p-x"], []⟩, ⟨[], [], ["p--x", "p-x"], []⟩, rfl, rfl⟩

/-- C1 (amended): each successful `generate_name` / `generate_resource_id`
call inserts into its cache exactly one candidate string that was absent
from that cache — so the cached candidates never repeat over the process
lifetime — and the string returned to the caller is the dash-collapsed
candidate (which may repeat, as the counterexample shows). -/
theorem C1_cache_candidates_unique :
    (∀ (cfg : Config) (pfx sfx : String) (dyn : Bool) (s : S) (r : String) (s' : S),
      generate_name cfg pfx sfx dyn s = some (r, s') → s.seenNames.Nodup →
        s'.seenNames.Nodup ∧
        ∃ cand, cand ∉ s.seenNames ∧ s'.seenNames = cand :: s.seenNames ∧
          r = collapseDashes cand) ∧
    (∀ (cfg : Config) (pfx sfx : String) (dyn : Bool) (s : S) (r : String) (s' : S),
      generate_resource_id cfg pfx sfx dyn s = some (r, s') → s.seenResourceIds.Nodup →
        s'.seenResourceIds.Nodup ∧
        ∃ cand, cand ∉ s.seenResourceIds ∧ s'.seenResourceIds = cand :: s.seenResourceIds ∧
          r = collapseDashes cand) := by
  constructor
  · intro cfg pfx sfx dyn s r s' h hnd
    obtain ⟨-, cand, hnot, hcons, hret⟩ := generate_name_spec h
    refine ⟨?_, cand, hnot, hcons, hret⟩
    rw [hcons]
    exact List.nodup_cons.mpr ⟨hnot, hnd⟩
  · intro cfg pfx sfx dyn s r s' h hnd
    obtain ⟨-, cand, hnot, hcons, hret⟩ := generate_resource_id_spec h
    refine ⟨?_, cand, hnot, hcons, hret⟩
    rw [hcons]
    exact List.nodup_cons.mpr ⟨hnot, hnd⟩

/-- C1 witness: a concrete `generate_name` call inserting a fresh
candidate into an empty cache. -/
theorem C1_cache_candidates_unique_witness :
    (⟨[], [], ["p-x"], []⟩ : S).seenNames.Nodup ∧
    ∃ cand, cand ∉ (⟨[], ["x"], [], []⟩ : S).seenNames ∧
      (⟨[], [], ["p-x"], []⟩ : S).seenNames = cand :: (⟨[], ["x"], [], []⟩ : S).seenNames ∧
      "p-x" = collapseDashes cand :=
  C1_cache_candidates_unique.1 cfgX "p" "" true ⟨[], ["x"], [], []⟩ "p-x"
    ⟨[], [], ["p-x"], []⟩ rfl (by simp)

/-- C8: the resource-id draw `random_int(0, 10 ** max_resource_id_length)`
includes its upper bound, whose decimal rendering has one digit more than
`max_resource_id_length`, and `zfill` does not truncate — so a node can
carry a resource id one character wider than configured.  Here
`max_resource_id_length = 1`, the draw is `10`, and the produced node's
resource id is the 2-character string `"10"`. -/
theorem C8_resource_id_width_bug :
    cfgY.max_resource_id_length = 1 ∧
    build_data cfgY false sY =
      some (⟨"2023-01-01", "2023-01-31", [⟨"a", 1, 2, "10", []⟩]⟩,
            ⟨[], [], ["a"], ["10"]⟩) ∧
    ("10" : String).length = 2 :=
  ⟨rfl, rfl, rfl⟩

/-- Arguments supplying both date flags, the start date as the empty
string. -/
def argsBoth : Args := ⟨none, "t", some "", some "2023-01-01", none⟩

/-- C9 counterexample: both date arguments are supplied (`--start-date ""`
and `--end-date 2023-01-01`), yet `handle_args` raises
`DateRangeArgsError`, because Python truthiness treats the supplied empty
string as absent. -/
theorem C9_empty_string_counts_as_absent :
    argsBoth.start_date.isSome = true ∧ argsBoth.end_date.isSome = true ∧
    handle_args (fun _ => true) (fun _ => ⟨2023, 1, 1⟩) argsBoth =
      Except.error ArgError.dateRange :=
  ⟨rfl, rfl, rfl⟩

/-- C9 (amended): when the file-existence checks pass, `handle_args`
raises `DateRangeArgsError` exactly when one of the two date arguments is
truthy (supplied and non-empty) and the other is not; a supplied empty
string counts as absent. -/
theorem C9_date_range_error_iff (fe : String → Bool) (pd : String → Date) (a : Args)
    (hc : ∀ f, a.config_file_name = some f → f = "" ∨ fe f = true)
    (ht : fe a.template_file_name = true) :
    handle_args fe pd a = Except.error ArgError.dateRange ↔
      optTruthy a.start_date ≠ optTruthy a.end_date := by
  unfold handle_args
  have hc1 : (match a.config_file_name with
      | some f => decide (f ≠ "") && !fe f
      | none => false) = false := by
    cases hcf : a.config_file_name with
    | none => rfl
    | some f =>
      rcases hc f hcf with h | h
      · simp [h]
      · simp [h]
  rw [hc1, ht]
  cases hs : optTruthy a.start_date <;> cases he : optTruthy a.end_date <;>
    simp [hs, he]

/-- C9 witness: supplying only a non-empty start date raises the error. -/
theorem C9_date_range_error_iff_witness :
    (handle_args (fun _ => true) (fun _ => ⟨2023, 1, 1⟩)
        ⟨none, "t", some "2023-01-01", none, none⟩ =
      Except.error ArgError.dateRange ↔
      optTruthy (some "2023-01-01") ≠ optTruthy none) ∧
    handle_args (fun _ => true) (fun _ => ⟨2023, 1, 1⟩)
        ⟨none, "t", some "2023-01-01", none, none⟩ =
      Except.error ArgError.dateRange :=
  ⟨C9_date_range_error_iff (fun _ => true) (fun _ => ⟨2023, 1, 1⟩)
      ⟨none, "t", some "2023-01-01", none, none⟩
      (fun f hf => by simp at hf) rfl,
   rfl⟩

/-- C6: merge precedence of `init_config` — an explicit argument override
wins over the file value, which wins over the default (`Option.getD`
below); keys not overridden keep their defaults; an absent file changes
nothing; and `handle_args` turns a node-count override below 1 into no
override. -/
theorem C6_config_precedence (pd : String → Date) (today : Date) (f : FileOver)
    (a : ParsedArgs) :
    ((init_config pd today (some f) a).start_date =
      match a.start_date with
      | some dt => FDate.fdate dt
      | none => resolveFDate pd (f.start_date.getD (default_config today).start_date)) ∧
    ((init_config pd today (some f) a).end_date =
      match a.end_date with
      | some dt => FDate.fdate dt
      | none => resolveFDate pd (f.end_date.getD (default_config today).end_date)) ∧
    ((init_config pd today (some f) a).max_nodes =
      match a.num_nodes with
      | some n => if n ≠ 0 then n else f.max_nodes.getD (default_config today).max_nodes
      | none => f.max_nodes.getD (default_config today).max_nodes) ∧
    ((init_config pd today (some f) a).storage_classes =
      f.storage_classes.getD (default_config today).storage_classes) ∧
    ((init_config pd today (some f) a).max_name_words =
      f.max_name_words.getD (default_config today).max_name_words) ∧
    ((init_config pd today (some f) a).max_resource_id_length =
      f.max_resource_id_length.getD (default_config today).max_resource_id_length) ∧
    ((init_config pd today (some f) a).max_node_cpu_cores =
      f.max_node_cpu_cores.getD (default_config today).max_node_cpu_cores) ∧
    ((init_config pd today (some f) a).max_node_memory_gig =
      f.max_node_memory_gig.getD (default_config today).max_node_memory_gig) ∧
    ((init_config pd today (some f) a).max_node_namespaces =
      f.max_node_namespaces.getD (default_config today).max_node_namespaces) ∧
    ((init_config pd today (some f) a).max_node_namespace_pods =
      f.max_node_namespace_pods.getD (default_config today).max_node_namespace_pods) ∧
    ((init_config pd today (some f) a).min_node_namespace_pod_seconds =
      f.min_node_namespace_pod_seconds.getD
        (default_config today).min_node_namespace_pod_seconds) ∧
    ((init_config pd today (some f) a).max_node_namespace_pod_seconds =
      f.max_node_namespace_pod_seconds.getD
        (default_config today).max_node_namespace_pod_seconds) ∧
    ((init_config pd today (some f) a).max_node_namespace_pod_labels =
      f.max_node_namespace_pod_labels.getD
        (default_config today).max_node_namespace_pod_labels) ∧
    ((init_config pd today (some f) a).max_node_namespace_volumes =
      f.max_node_namespace_volumes.getD
        (default_config today).max_node_namespace_volumes) ∧
    ((init_config pd today (some f) a).max_node_namespace_volume_request_gig =
      f.max_node_namespace_volume_request_gig.getD
        (default_config today).max_node_namespace_volume_request_gig) ∧
    ((init_config pd today (some f) a).max_node_namespace_volume_labels =
      f.max_node_namespace_volume_labels.getD
        (default_config today).max_node_namespace_volume_labels) ∧
    ((init_config pd today (some f) a).max_node_namespace_volume_volume_claims =
      f.max_node_namespace_volume_volume_claims.getD
        (default_config today).max_node_namespace_volume_volume_claims) ∧
    ((init_config pd today (some f) a).max_node_namespace_volume_volume_claim_labels =
      f.max_node_namespace_volume_volume_claim_labels.getD
        (default_config today).max_node_namespace_volume_volume_claim_labels) ∧
    ((init_config pd today (some f) a).max_node_namespace_volume_volume_claim_capacity_gig =
      f.max_node_namespace_volume_volume_claim_capacity_gig.getD
        (default_config today).max_node_namespace_volume_volume_claim_capacity_gig) ∧
    (init_config pd today none a = init_config pd today (some {}) a) ∧
    (∀ (fe : String → Bool) (raw : Args) (n : Int) (out : ParsedArgs),
      raw.num_nodes = some n → n < 1 → handle_args fe pd raw = Except.ok out →
      out.num_nodes = none) := by
  obtain ⟨acf, atf, asd, aed, ann⟩ := a
  have hcomp : ∀ (fe : String → Bool) (raw : Args) (n : Int) (out : ParsedArgs),
      raw.num_nodes = some n → n < 1 → handle_args fe pd raw = Except.ok out →
      out.num_nodes = none := by
    intro fe raw n out hn hlt hok
    unfold handle_args at hok
    repeat' split at hok
    all_goals try exact Except.noConfusion hok
    all_goals simp only [Except.ok.injEq] at hok
    all_goals subst hok
    all_goals first | rfl | simp_all
  refine ⟨?_, ?_, ?_, ?_, ?_, ?_, ?_, ?_, ?_, ?_, ?_, ?_, ?_, ?_, ?_, ?_, ?_, ?_, ?_, ?_,
    hcomp⟩
  all_goals
    cases asd <;> cases aed <;> cases ann <;>
      simp only [init_config, applyFile, resolveFDate] <;>
      first
        | rfl
        | (split <;> rfl)

/-- Pieces of the date parser and defaults used to exercise the merge. -/
def pdW : String → Date := fun _ => ⟨2024, 3, 4⟩

/-- A concrete `today` for the merge witness. -/
def todayW : Date := ⟨2023, 5, 15⟩

/-- A settings file overriding the node count and the name-word count. -/
def fW : FileOver := { max_nodes := some 7, max_name_words := some 3 }

/-- Arguments carrying only an explicit start date. -/
def aW : ParsedArgs := ⟨none, "t", some ⟨2022, 2, 2⟩, none, none⟩

/-- A file-existence oracle under which every path exists. -/
def feW : String → Bool := fun _ => true

/-- Raw arguments with a node-count override below 1. -/
def rawW : Args := ⟨none, "t", none, none, some (-5)⟩

/-- The parsed arguments `handle_args` produces for `rawW`. -/
def outW : ParsedArgs := ⟨none, "t", none, none, none⟩

/-- C6 witness: explicit start date wins, file node count and name-word
count win, an untouched key keeps its default, and a below-1 node-count
override is normalized away. -/
theorem C6_config_precedence_witness :
    (init_config pdW todayW (some fW) aW).start_date = FDate.fdate ⟨2022, 2, 2⟩ ∧
    (init_config pdW todayW (some fW) aW).max_nodes = 7 ∧
    (init_config pdW todayW (some fW) aW).max_name_words = 3 ∧
    (init_config pdW todayW (some fW) aW).max_node_memory_gig = 2 ∧
    outW.num_nodes = none := by
  obtain ⟨h1, h2, h3, h4, h5, h6, h7, h8, h9, h10, h11, h12, h13, h14, h15, h16, h17, h18,
    h19, h20, h21⟩ := C6_config_precedence pdW todayW fW aW
  exact ⟨h1, h3, h5, h8, h21 feW rawW (-5) outW rfl (by decide) rfl⟩

/-- An empty `filterMap` result means every element maps to `none`. -/
theorem filterMap_nil_forall {α β : Type _} {f : α → Option β} :
    ∀ {l : List α}, l.filterMap f = [] → ∀ a ∈ l, f a = none := by
  intro l
  induction l with
  | nil => intro _ a ha; exact absurd ha (by simp)
  | cons x xs ih =>
    intro h a ha
    simp only [List.filterMap_cons] at h
    cases hx : f x with
    | some b =>
      rw [hx] at h
      exact absurd h (by simp)
    | none =>
      rw [hx] at h
      rcases List.mem_cons.mp ha with rfl | ha'
      · exact hx
      · exact ih h a ha'

/-- If every element maps to `none`, the `filterMap` result is empty. -/
theorem forall_none_filterMap_nil {α β : Type _} {f : α → Option β} :
    ∀ {l : List α}, (∀ a ∈ l, f a = none) → l.filterMap f = [] := by
  intro l
  induction l with
  | nil => intro _; rfl
  | cons x xs ih =>
    intro h
    simp only [List.filterMap_cons, h x (by simp)]
    exact ih (fun a ha => h a (by simp [ha]))

/-- A `filterMap` whose function is an if-guarded `some` is a `map` over a
`filter`. -/
theorem filterMap_eq_map_filter {α β : Type _} (f : α → Option β) (p : α → Bool) (g : α → β)
    (hf : ∀ x, f x = if p x then some (g x) else none) :
    ∀ l : List α, l.filterMap f = (l.filter p).map g := by
  intro l
  induction l with
  | nil => rfl
  | cons x xs ih =>
    by_cases hx : p x
    · simp [List.filterMap_cons, List.filter_cons, hf x, hx, ih]
    · simp [List.filterMap_cons, List.filter_cons, hf x, hx, ih]

/-- `filterMap` only depends on the function's values on the list. -/
theorem filterMap_congr_mem {α β : Type _} {f g : α → Option β} :
    ∀ {l : List α}, (∀ a ∈ l, f a = g a) → l.filterMap f = l.filterMap g := by
  intro l
  induction l with
  | nil => intro _; rfl
  | cons x xs ih =>
    intro h
    simp only [List.filterMap_cons, h x (by simp)]
    cases g x <;> simp [ih (fun a ha => h a (by simp [ha]))]

/-- C7: `validate_config` succeeds exactly when every known key present in
the config passes its `isinstance` check; on failure the raised message
joins one line per offending key — all of them, in validator order — and
prepending an unknown key never changes the outcome. -/
theorem C7_validate_config_report (cfgd : List (String × PyVal)) :
    (validate_config cfgd = Except.ok true ↔
      ∀ kv ∈ validator, ∀ v, lookupKey cfgd kv.1 = some v → isinstance v kv.2 = true) ∧
    ((∃ kv ∈ validator, ∃ v, lookupKey cfgd kv.1 = some v ∧ isinstance v kv.2 = false) →
      validate_config cfgd = Except.error (String.intercalate osLinesep
        ((validator.filter (badEntry cfgd)).map
          (fun kv => kv.1 ++ " Must be of type " ++ typeName kv.2)))) ∧
    (∀ k vv, (∀ kv ∈ validator, kv.1 ≠ k) →
      validate_config ((k, vv) :: cfgd) = validate_config cfgd) := by
  have hshape : ∀ kv, offendMsg cfgd kv =
      if badEntry cfgd kv then some (kv.1 ++ " Must be of type " ++ typeName kv.2)
      else none := by
    intro kv
    unfold offendMsg badEntry
    cases lookupKey cfgd kv.1 with
    | none => rfl
    | some v => cases hiv : isinstance v kv.2 <;> simp [hiv]
  refine ⟨⟨?_, ?_⟩, ?_, ?_⟩
  · intro hok kv hkv v hv
    simp only [validate_config] at hok
    split at hok
    next hres =>
      have hnone := filterMap_nil_forall hres kv hkv
      unfold offendMsg at hnone
      simp only [hv] at hnone
      cases hiv : isinstance v kv.2 with
      | false => simp [hiv] at hnone
      | true => rfl
    next => exact absurd hok (by simp)
  · intro hall
    have hres : validator.filterMap (offendMsg cfgd) = [] := by
      apply forall_none_filterMap_nil
      intro kv hkv
      unfold offendMsg
      cases hl : lookupKey cfgd kv.1 with
      | none => rfl
      | some v => simp [hall kv hkv v hl]
    simp [validate_config, hres]
  · rintro ⟨kv, hkv, v, hv, hbad⟩
    have hne : validator.filterMap (offendMsg cfgd) ≠ [] := by
      intro hnil
      have hnone := filterMap_nil_forall hnil kv hkv
      unfold offendMsg at hnone
      simp [hv, hbad] at hnone
    have hmap := filterMap_eq_map_filter (offendMsg cfgd) (badEntry cfgd)
      (fun kv => kv.1 ++ " Must be of type " ++ typeName kv.2) hshape validator
    have hne2 : (validator.filter (badEntry cfgd)).map
        (fun kv => kv.1 ++ " Must be of type " ++ typeName kv.2) ≠ [] := by
      rw [← hmap]
      exact hne
    simp only [validate_config, hmap]
    rw [if_neg hne2]
  · intro k vv hk
    have heq : ∀ kv ∈ validator, offendMsg ((k, vv) :: cfgd) kv = offendMsg cfgd kv := by
      intro kv hkv
      have hl : lookupKey ((k, vv) :: cfgd) kv.1 = lookupKey cfgd kv.1 := by
        unfold lookupKey
        rw [List.find?_cons_of_neg]
        simp only [beq_iff_eq]
        exact Ne.symm (hk kv hkv)
      unfold offendMsg
      rw [hl]
    have hfm := filterMap_congr_mem heq
    simp only [validate_config, hfm]

/-- A merged config with a wrongly-typed known key and an unknown key. -/
def cfgdW : List (String × PyVal) :=
  [("max_nodes", PyVal.vStr "three"), ("flavor", PyVal.vInt 1)]

/-- C7 witness: `max_nodes: "three"` raises the message naming
`max_nodes`, while a config holding only an unknown key validates. -/
theorem C7_validate_config_report_witness :
    validate_config cfgdW = Except.error "max_nodes Must be of type int" ∧
    validate_config [("flavor", PyVal.vInt 1)] = Except.ok true :=
  ⟨(C7_validate_config_report cfgdW).2.1
      ⟨("max_nodes", PyType.tInt), by decide, PyVal.vStr "three", rfl, rfl⟩,
   (C7_validate_config_report [("flavor", PyVal.vInt 1)]).1.mpr (by decide)⟩

end Nise
